import Mathlib

/-!
Verification development for the bigcommerce-api-mcp tool dispatch core.

The JavaScript source (src/mcpServer.js and the three tool modules under
src/tools/bigcommerce/res-tful-api-basics-blueprint/) is shallowly embedded:
JavaScript runtime values are the inductive `JSVal` (numbers are modelled as
integers, since every number the dispatcher and the tools manipulate is an
integer; floating point is outside the model), the dispatcher's CallTool
handler becomes the pure function `callTool` parameterised by the operation's
outcome and the timestamp string, and each tool's upstream-response handling
becomes a pure function from an `HttpResp` record to an `OpResult`.
-/

/-- A JavaScript runtime value, as far as the dispatcher and the tool
modules observe it. Numbers are modelled as integers. -/
inductive JSVal : Type where
  | undefined : JSVal
  | null : JSVal
  | bool : Bool → JSVal
  | num : Int → JSVal
  | str : String → JSVal
  | arr : List JSVal → JSVal
  | obj : List (String × JSVal) → JSVal

namespace JSVal

/-- JavaScript truthiness: `undefined`, `null`, `false`, `0`, and the empty
string are falsy; every object and array is truthy. -/
def truthy : JSVal → Bool
  | undefined => false
  | null => false
  | bool b => b
  | num n => n != 0
  | str s => s ≠ ""
  | arr _ => true
  | obj _ => true

/-- The JavaScript `typeof` operator (note `typeof null` is the string
"object", and arrays are objects). -/
def typeofStr : JSVal → String
  | undefined => "undefined"
  | null => "object"
  | bool _ => "boolean"
  | num _ => "number"
  | str _ => "string"
  | arr _ => "object"
  | obj _ => "object"

/-- `Array.isArray`. -/
def isArrayV : JSVal → Bool
  | arr _ => true
  | _ => false

/-- Length of an array value (0 on anything else; only applied to arrays). -/
def arrayLen : JSVal → Nat
  | arr xs => xs.length
  | _ => 0

/-- Field lookup on an object's own properties. -/
def lookupField (fs : List (String × JSVal)) (k : String) : Option JSVal :=
  match fs.find? (fun p => p.1 == k) with
  | some p => some p.2
  | none => none

/-- JavaScript property read `v.k`: `undefined` when the property is absent
or the value is not a plain object (the tool payload field names read by the
dispatcher, "error" and "data", are not array or primitive properties). -/
def getField : JSVal → String → JSVal
  | obj fs, k => (lookupField fs k).getD undefined
  | _, _ => undefined

/-- JavaScript `a && b`: the first falsy operand, else the second operand. -/
def jsAnd (a b : JSVal) : JSVal := if truthy a then b else a

/-- JavaScript `a || b`: the first truthy operand, else the second operand. -/
def jsOr (a b : JSVal) : JSVal := if truthy a then a else b

/-- Destructuring default: `({x = d} = bag)` replaces only `undefined`. -/
def jsDefault (v d : JSVal) : JSVal :=
  match v with
  | undefined => d
  | _ => v

mutual

/-- JavaScript `String(v)` / template-literal conversion: arrays join their
elements with commas (with `null`/`undefined` elements as empty strings),
plain objects print as "[object Object]". -/
def jsToString : JSVal → String
  | undefined => "undefined"
  | null => "null"
  | bool b => if b then "true" else "false"
  | num n => toString n
  | str s => s
  | arr xs => jsToStringList xs
  | obj _ => "[object Object]"

def jsToStringList : List JSVal → String
  | [] => ""
  | [x] => jsToStringElem x
  | x :: xs => jsToStringElem x ++ "," ++ jsToStringList xs

/-- Element conversion inside `Array.prototype.join`: `null` and
`undefined` become empty strings, everything else converts as usual. -/
def jsToStringElem : JSVal → String
  | undefined => ""
  | null => ""
  | bool b => if b then "true" else "false"
  | num n => toString n
  | str s => s
  | arr xs => jsToStringList xs
  | obj _ => "[object Object]"

end

/-- Escape one character for a JSON string literal, as `JSON.stringify`
does: quote, backslash and the named control escapes, other control
characters as a four-digit unicode escape. -/
def jsonEscapeChar (c : Char) : String :=
  if c = '\x22' then "\\\x22"
  else if c = '\\' then "\\\\"
  else if c = '\n' then "\\n"
  else if c = '\r' then "\\r"
  else if c = '\t' then "\\t"
  else if c = '\x08' then "\\b"
  else if c = '\x0c' then "\\f"
  else if c.toNat < 32 then
    let hx := Nat.toDigits 16 c.toNat
    "\\u" ++ String.mk (List.replicate (4 - hx.length) '0') ++ String.mk hx
  else String.singleton c

/-- A JSON string literal for `s`, as `JSON.stringify` produces. -/
def jsonQuote (s : String) : String :=
  "\x22" ++ String.join (s.toList.map jsonEscapeChar) ++ "\x22"

mutual

/-- A computable structural size, used as serializer fuel. -/
def jsSize : JSVal → Nat
  | undefined => 1
  | null => 1
  | bool _ => 1
  | num _ => 1
  | str _ => 1
  | arr xs => 1 + jsSizeList xs
  | obj fs => 1 + jsSizeFields fs

def jsSizeList : List JSVal → Nat
  | [] => 1
  | x :: xs => 1 + jsSize x + jsSizeList xs

def jsSizeFields : List (String × JSVal) → Nat
  | [] => 1
  | (_, v) :: fs => 1 + jsSize v + jsSizeFields fs

end

mutual

/-- `JSON.stringify(v, null, gap)` with current indentation `ind`; `none`
for `undefined` (which stringify drops from objects and renders as null in
arrays). `gap = ""` is the compact two-argument form. The recursion is
bounded by a fuel parameter so that the definition is structural and
kernel-reducible; the entry points below supply `jsSize v` as fuel, which
dominates the recursion depth, so the sentinel 0-fuel arm is unreachable. -/
def serJSON : Nat → String → String → JSVal → Option String
  | 0, _, _, _ => some ""
  | Nat.succ _, _, _, undefined => none
  | Nat.succ _, _, _, null => some "null"
  | Nat.succ _, _, _, bool b => some (if b then "true" else "false")
  | Nat.succ _, _, _, num n => some (toString n)
  | Nat.succ _, _, _, str s => some (jsonQuote s)
  | Nat.succ f, gap, ind, arr xs => some (serArr f gap ind xs)
  | Nat.succ f, gap, ind, obj fs => some (serObj f gap ind fs)

def serArr : Nat → String → String → List JSVal → String
  | 0, _, _, _ => ""
  | Nat.succ f, gap, ind, xs =>
    if xs.isEmpty then "[]"
    else
      let items := serArrItems f gap (ind ++ gap) xs
      if gap = "" then "[" ++ items ++ "]"
      else "[\n" ++ ind ++ gap ++ items ++ "\n" ++ ind ++ "]"

def serArrItems : Nat → String → String → List JSVal → String
  | 0, _, _, _ => ""
  | Nat.succ _, _, _, [] => ""
  | Nat.succ f, gap, ind, [x] => ((serJSON f gap ind x).getD "null")
  | Nat.succ f, gap, ind, x :: xs =>
    ((serJSON f gap ind x).getD "null")
      ++ (if gap = "" then "," else ",\n" ++ ind)
      ++ serArrItems f gap ind xs

def serObj : Nat → String → String → List (String × JSVal) → String
  | 0, _, _, _ => ""
  | Nat.succ f, gap, ind, fs =>
    match serObjItems f gap (ind ++ gap) fs with
    | [] => "\x7b\x7d"
    | members =>
      if gap = "" then
        "\x7b" ++ String.intercalate "," members ++ "\x7d"
      else
        "\x7b\n" ++ ind ++ gap
          ++ String.intercalate (",\n" ++ ind ++ gap) members
          ++ "\n" ++ ind ++ "\x7d"

def serObjItems : Nat → String → String → List (String × JSVal) → List String
  | 0, _, _, _ => []
  | Nat.succ _, _, _, [] => []
  | Nat.succ f, gap, ind, (k, v) :: fs =>
    match serJSON f gap ind v with
    | none => serObjItems f gap ind fs
    | some sv =>
      (jsonQuote k ++ (if gap = "" then ":" else ": ") ++ sv) :: serObjItems f gap ind fs

end

/-- `JSON.stringify(v, null, 2)` (the dispatcher's pretty-printing call). -/
def stringify2 (v : JSVal) : String := (serJSON (jsSize v) "  " "" v).getD "undefined"

/-- `JSON.stringify(v)` (the compact form used in the tools' error paths). -/
def stringifyCompact (v : JSVal) : String := (serJSON (jsSize v) "" "" v).getD "undefined"

end JSVal

/-! ### String searching helpers (JavaScript `String.prototype.includes` and
the title-extracting regular expression in get-all-customers.js). -/

/-- Is `p` a leading segment of `l`? -/
def listIsLeading : List Char → List Char → Bool
  | p :: ps, c :: cs => p == c && listIsLeading ps cs
  | [], _ => true
  | _ :: _, [] => false

/-- Does `needle` occur contiguously inside `hay`? -/
def listHasSub (needle : List Char) : List Char → Bool
  | [] => needle.isEmpty
  | c :: cs => listIsLeading needle (c :: cs) || listHasSub needle cs

/-- JavaScript `hay.includes(needle)`. -/
def strContains (hay needle : String) : Bool :=
  listHasSub needle.toList hay.toList

/-- JavaScript whitespace for `String.prototype.trim` (ASCII whitespace and
the no-break space; other exotic unicode spaces do not occur here). -/
def isJsWs (c : Char) : Bool :=
  c = ' ' || c = '\t' || c = '\n' || c = '\r' || c = '\x0b' || c = '\x0c' || c = '\xa0'

/-- JavaScript `s.trim()`. -/
def jsTrim (s : String) : String :=
  String.mk (((s.toList.dropWhile isJsWs).reverse.dropWhile isJsWs).reverse)

/-- JavaScript `s.startsWith(p)`. -/
def strStartsWith (s p : String) : Bool :=
  listIsLeading p.toList s.toList

/-- JavaScript `s.substring(0, n)` (approximated at character rather than
UTF-16 code-unit granularity, which coincides on the ASCII texts here). -/
def strTake (s : String) (n : Nat) : String :=
  String.mk (s.toList.take n)

/-- Index of the first occurrence of `needle` in `l`, matching
case-insensitively (for the `/i` regular-expression flag). -/
def listFindSubCI (needle : List Char) : List Char → Option Nat
  | [] => if needle.isEmpty then some 0 else none
  | c :: cs =>
    if listIsLeading (needle.map Char.toLower) ((c :: cs).map Char.toLower) then some 0
    else (listFindSubCI needle cs).map (· + 1)

/-- The match of `/<title>(.*?)<\/title>/i` against `s`: the text between the
first case-insensitive "<title>" and the next case-insensitive "</title>",
provided it spans no newline (`.` does not match a newline; retrying the
match at a later position is not modelled). -/
def findTitle (s : String) : Option String :=
  let cs := s.toList
  match listFindSubCI "<title>".toList cs with
  | none => none
  | some i =>
    let rest := cs.drop (i + 7)
    match listFindSubCI "</title>".toList rest with
    | none => none
    | some j =>
      let inner := rest.take j
      if inner.contains '\n' then none else some (String.mk inner)

/-! ### `JSON.parse`, modelled as a fuel-bounded recursive-descent parser.
Only integer numbers are representable (`JSVal.num : Int`); a fractional or
exponent part makes the parse fail in the model, which no claim exercises. -/

/-- JSON insignificant whitespace. -/
def isWsChar (c : Char) : Bool :=
  c = ' ' || c = '\t' || c = '\n' || c = '\r'

/-- Drop leading JSON whitespace. -/
def skipWs : List Char → List Char
  | [] => []
  | c :: cs => if isWsChar c then skipWs cs else c :: cs

/-- Value of a hexadecimal digit. -/
def hexDigitVal (x : Char) : Option Nat :=
  if x.isDigit then some (x.toNat - 48)
  else if 'a' ≤ x && x ≤ 'f' then some (x.toNat - 87)
  else if 'A' ≤ x && x ≤ 'F' then some (x.toNat - 55)
  else none

/-- The character denoted by a single-character JSON escape. -/
def escChar (e : Char) : Option Char :=
  if e = '\x22' then some '\x22'
  else if e = '\\' then some '\\'
  else if e = '/' then some '/'
  else if e = 'n' then some '\n'
  else if e = 'r' then some '\r'
  else if e = 't' then some '\t'
  else if e = 'b' then some '\x08'
  else if e = 'f' then some '\x0c'
  else none

/-- Prepend a decoded character to a string-body parse result. -/
def consParsed (c : Char) : Option (List Char × List Char) → Option (List Char × List Char)
  | none => none
  | some (cs, rest) => some (c :: cs, rest)

/-- Body of a JSON string literal after the opening quote: the decoded
characters and the remainder after the closing quote. -/
def parseStrBody : List Char → Option (List Char × List Char)
  | [] => none
  | '\x22' :: rest => some ([], rest)
  | '\\' :: 'u' :: a :: b :: c :: d :: rest =>
    (match hexDigitVal a, hexDigitVal b, hexDigitVal c, hexDigitVal d with
     | some ha, some hb, some hc, some hd =>
       consParsed (Char.ofNat (((ha * 16 + hb) * 16 + hc) * 16 + hd)) (parseStrBody rest)
     | _, _, _, _ => none)
  | '\\' :: e :: rest =>
    (match escChar e with
     | some c => consParsed c (parseStrBody rest)
     | none => none)
  | c :: rest =>
    if c.toNat < 32 then none
    else consParsed c (parseStrBody rest)

/-- Consume a run of decimal digits, accumulating their value. -/
def takeDigits (acc : Nat) : List Char → (Nat × List Char)
  | [] => (acc, [])
  | c :: cs =>
    if c.isDigit then takeDigits (acc * 10 + (c.toNat - 48)) cs else (acc, c :: cs)

/-- A JSON number at the head of the input (integers only in this model;
a '.' or exponent after the integer part fails the parse). -/
def parseIntNum : List Char → Option (Int × List Char)
  | '-' :: c :: cs =>
    if c.isDigit then
      let (n, rest) := takeDigits (c.toNat - 48) cs
      match rest with
      | d :: _ => if d = '.' || d = 'e' || d = 'E' then none else some (-(n : Int), rest)
      | [] => some (-(n : Int), [])
    else none
  | c :: cs =>
    if c.isDigit then
      let (n, rest) := takeDigits (c.toNat - 48) cs
      match rest with
      | d :: _ => if d = '.' || d = 'e' || d = 'E' then none else some ((n : Int), rest)
      | [] => some ((n : Int), [])
    else none
  | [] => none

mutual

/-- One JSON value at the head of the input (after whitespace). -/
def parseVal : Nat → List Char → Option (JSVal × List Char)
  | 0, _ => none
  | Nat.succ fuel, input =>
    match skipWs input with
    | 'n' :: 'u' :: 'l' :: 'l' :: rest => some (JSVal.null, rest)
    | 't' :: 'r' :: 'u' :: 'e' :: rest => some (JSVal.bool true, rest)
    | 'f' :: 'a' :: 'l' :: 's' :: 'e' :: rest => some (JSVal.bool false, rest)
    | '\x22' :: rest =>
      match parseStrBody rest with
      | none => none
      | some (cs, rest2) => some (JSVal.str (String.mk cs), rest2)
    | '[' :: rest =>
      (match skipWs rest with
       | ']' :: rest2 => some (JSVal.arr [], rest2)
       | _ =>
         match parseElems fuel (skipWs rest) with
         | none => none
         | some (xs, rest2) => some (JSVal.arr xs, rest2))
    | '\x7b' :: rest =>
      (match skipWs rest with
       | '\x7d' :: rest2 => some (JSVal.obj [], rest2)
       | _ =>
         match parseMembers fuel (skipWs rest) with
         | none => none
         | some (fs, rest2) => some (JSVal.obj fs, rest2))
    | other =>
      match parseIntNum other with
      | none => none
      | some (n, rest) => some (JSVal.num n, rest)

/-- Comma-separated array elements, then the closing bracket. -/
def parseElems : Nat → List Char → Option (List JSVal × List Char)
  | 0, _ => none
  | Nat.succ fuel, input =>
    match parseVal fuel input with
    | none => none
    | some (v, rest) =>
      match skipWs rest with
      | ',' :: rest2 =>
        (match parseElems fuel (skipWs rest2) with
         | none => none
         | some (xs, rest3) => some (v :: xs, rest3))
      | ']' :: rest2 => some ([v], rest2)
      | _ => none

/-- Comma-separated object members, then the closing brace. -/
def parseMembers : Nat → List Char → Option (List (String × JSVal) × List Char)
  | 0, _ => none
  | Nat.succ fuel, input =>
    match skipWs input with
    | '\x22' :: rest =>
      (match parseStrBody rest with
       | none => none
       | some (kcs, rest2) =>
         match skipWs rest2 with
         | ':' :: rest3 =>
           (match parseVal fuel rest3 with
            | none => none
            | some (v, rest4) =>
              match skipWs rest4 with
              | ',' :: rest5 =>
                (match parseMembers fuel rest5 with
                 | none => none
                 | some (fs, rest6) => some ((String.mk kcs, v) :: fs, rest6))
              | '\x7d' :: rest5 => some ([(String.mk kcs, v)], rest5)
              | _ => none)
         | _ => none)
    | _ => none

end

/-- `JSON.parse(s)`: `none` models a thrown `SyntaxError`. -/
def jsonParse (s : String) : Option JSVal :=
  match parseVal (s.length + 2) s.toList with
  | none => none
  | some (v, rest) => if skipWs rest = [] then some v else none

/-- The message of the `SyntaxError` thrown by `JSON.parse`; its precise
text is engine-specific and never inspected by this program, so the model
fixes one representative message per shape. -/
def jsonParseErrMsg (s : String) : String :=
  if jsTrim s = "" then "Unexpected end of JSON input"
  else "Unexpected token in JSON at position 0"

/-! ### The upstream HTTP layer as the tool modules observe it. -/

/-- An upstream `fetch` response, reduced to the fields the tool modules
read: the `ok` flag (true exactly for a 2xx status), the numeric status,
the status text, and the body text. -/
structure HttpResp where
  ok : Bool
  status : Nat
  statusText : String
  body : String

/-- The outcome of one tool operation, as a tagged value: `success v`
models `return v`, and `failure m` models the catch-all
`return { error: m }` at the bottom of each tool module. -/
inductive OpResult : Type where
  | success : JSVal → OpResult
  | failure : String → OpResult

/-- The JavaScript value an `OpResult` stands for. -/
def OpResult.toJS : OpResult → JSVal
  | success v => v
  | failure m => JSVal.obj [("error", JSVal.str m)]

def OpResult.isFailure : OpResult → Bool
  | success _ => false
  | failure _ => true

/-- The empty-body sentinel `{ data: [], meta: { total: 0 } }`. -/
def emptySentinel : JSVal :=
  JSVal.obj [("data", JSVal.arr []), ("meta", JSVal.obj [("total", JSVal.num 0)])]

/-! ### URLSearchParams -/

/-- Is a byte kept verbatim by the `application/x-www-form-urlencoded`
serializer? (ASCII alphanumerics and `*-._`.) -/
def urlKeepByte (b : Nat) : Bool :=
  (48 ≤ b && b ≤ 57) || (65 ≤ b && b ≤ 90) || (97 ≤ b && b ≤ 122) ||
    b == 42 || b == 45 || b == 46 || b == 95

/-- Percent-encode one byte as an uppercase two-digit escape. -/
def pctEncodeByte (b : Nat) : String :=
  let hx := Nat.toDigits 16 b
  let hx := List.replicate (2 - hx.length) '0' ++ hx.map Char.toUpper
  "%" ++ String.mk hx

/-- The UTF-8 encoding of one character, as byte values. -/
def charUtf8Bytes (c : Char) : List Nat :=
  let n := c.toNat
  if n < 128 then [n]
  else if n < 2048 then [192 + n / 64, 128 + n % 64]
  else if n < 65536 then [224 + n / 4096, 128 + n / 64 % 64, 128 + n % 64]
  else [240 + n / 262144, 128 + n / 4096 % 64, 128 + n / 64 % 64, 128 + n % 64]

/-- `application/x-www-form-urlencoded` escaping of one component, applied
to its UTF-8 bytes: kept bytes verbatim, space as "+", the rest
percent-encoded. -/
def urlEncode (s : String) : String :=
  String.join ((s.toList.flatMap charUtf8Bytes).map fun b =>
    if urlKeepByte b then String.singleton (Char.ofNat b)
    else if b == 32 then "+"
    else pctEncodeByte b)

/-- `URLSearchParams.prototype.toString` on an append-ordered key/value
list. -/
def searchParamsToString (ps : List (String × String)) : String :=
  String.intercalate "&" (ps.map fun p => urlEncode p.1 ++ "=" ++ urlEncode p.2)

/-! ### src/tools/bigcommerce/res-tful-api-basics-blueprint/get-all-products.js -/

namespace GetAllProducts

/-- Lines 36-68 of get-all-products.js: classify the upstream response.
`Except.error` models a `throw` inside the `try` block. -/
def handleResponseCore (r : HttpResp) : Except String JSVal :=
  if !r.ok then
    match jsonParse r.body with
    | some errorData => Except.error (JSVal.stringifyCompact errorData)
    | none =>
      Except.error ("HTTP " ++ toString r.status ++ ": "
        ++ (if r.body = "" then r.statusText else r.body))
  else if r.body = "" || jsTrim r.body = "" then
    Except.ok emptySentinel
  else
    match jsonParse r.body with
    | some data => Except.ok data
    | none =>
      Except.error ("Invalid JSON response: " ++ strTake r.body 200 ++ "...")

/-- The whole response-handling path of `executeFunction`, with the final
catch converting any thrown message into a `{ error: ... }` value. -/
def executeFunction (r : HttpResp) : OpResult :=
  match handleResponseCore r with
  | Except.ok v => OpResult.success v
  | Except.error m =>
    OpResult.failure ("An error occurred while getting all products: " ++ m)

end GetAllProducts

/-! ### src/tools/bigcommerce/res-tful-api-basics-blueprint/get-all-orders.js -/

namespace GetAllOrders

/-- The argument bag of `executeFunction` after destructuring: one field per
declared parameter, `undefined` when the caller supplied no value. -/
structure Args where
  store_Hash : JSVal := JSVal.undefined
  customer_id : JSVal := JSVal.undefined
  email : JSVal := JSVal.undefined
  status_id : JSVal := JSVal.undefined
  min_id : JSVal := JSVal.undefined
  max_id : JSVal := JSVal.undefined
  min_total : JSVal := JSVal.undefined
  max_total : JSVal := JSVal.undefined
  min_date_created : JSVal := JSVal.undefined
  max_date_created : JSVal := JSVal.undefined
  min_date_modified : JSVal := JSVal.undefined
  max_date_modified : JSVal := JSVal.undefined
  channel_id : JSVal := JSVal.undefined
  payment_method : JSVal := JSVal.undefined
  cart_id : JSVal := JSVal.undefined
  external_order_id : JSVal := JSVal.undefined
  sort : JSVal := JSVal.undefined
  limit : JSVal := JSVal.undefined
  page : JSVal := JSVal.undefined

/-- One conditional `if (v) queryParams.append(k, ...)` from lines 62-79:
the appended pair when the value is truthy, nothing otherwise. -/
def appendIf (k : String) (v : JSVal) : List (String × String) :=
  if JSVal.truthy v then [(k, JSVal.jsToString v)] else []

/-- Lines 49-50 and 60-79 of get-all-orders.js: the query parameters in
append order, with `limit` and `page` defaulted by destructuring to 50
and 1. -/
def buildQueryParams (a : Args) : List (String × String) :=
  let limit := JSVal.jsDefault a.limit (JSVal.num 50)
  let page := JSVal.jsDefault a.page (JSVal.num 1)
  appendIf "customer_id" a.customer_id
    ++ appendIf "email" a.email
    ++ appendIf "status_id" a.status_id
    ++ appendIf "min_id" a.min_id
    ++ appendIf "max_id" a.max_id
    ++ appendIf "min_total" a.min_total
    ++ appendIf "max_total" a.max_total
    ++ appendIf "min_date_created" a.min_date_created
    ++ appendIf "max_date_created" a.max_date_created
    ++ appendIf "min_date_modified" a.min_date_modified
    ++ appendIf "max_date_modified" a.max_date_modified
    ++ appendIf "channel_id" a.channel_id
    ++ appendIf "payment_method" a.payment_method
    ++ appendIf "cart_id" a.cart_id
    ++ appendIf "external_order_id" a.external_order_id
    ++ appendIf "sort" a.sort
    ++ appendIf "limit" limit
    ++ appendIf "page" page

/-- The query string appended to `/v2/orders` (without the leading "?"). -/
def queryString (a : Args) : String :=
  searchParamsToString (buildQueryParams a)

/-- The declared filter parameters of get-all-orders.js: every documented
"Filter ..." parameter (`limit`, `page` and `sort` are pagination and
ordering controls, and `store_Hash` addresses the store). -/
def filterKeys : List String :=
  ["customer_id", "email", "status_id", "min_id", "max_id", "min_total",
   "max_total", "min_date_created", "max_date_created", "min_date_modified",
   "max_date_modified", "channel_id", "payment_method", "cart_id",
   "external_order_id"]

/-- Lines 98-124 of get-all-orders.js: response classification, identical
in shape to get-all-products.js. -/
def handleResponseCore (r : HttpResp) : Except String JSVal :=
  if !r.ok then
    match jsonParse r.body with
    | some errorData => Except.error (JSVal.stringifyCompact errorData)
    | none =>
      Except.error ("HTTP " ++ toString r.status ++ ": "
        ++ (if r.body = "" then r.statusText else r.body))
  else if r.body = "" || jsTrim r.body = "" then
    Except.ok emptySentinel
  else
    match jsonParse r.body with
    | some data => Except.ok data
    | none =>
      Except.error ("Invalid JSON response: " ++ strTake r.body 200 ++ "...")

/-- The response-handling path of `executeFunction` with its final catch. -/
def executeFunction (r : HttpResp) : OpResult :=
  match handleResponseCore r with
  | Except.ok v => OpResult.success v
  | Except.error m =>
    OpResult.failure ("An error occurred while getting all orders: " ++ m)

end GetAllOrders

/-! ### src/tools/bigcommerce/res-tful-api-basics-blueprint/get-all-customers.js -/

namespace GetAllCustomers

/-- The argument bag of `executeFunction` after destructuring. -/
structure Args where
  store_Hash : JSVal := JSVal.undefined
  id : JSVal := JSVal.undefined
  email : JSVal := JSVal.undefined
  name : JSVal := JSVal.undefined
  name_like : JSVal := JSVal.undefined
  company : JSVal := JSVal.undefined
  phone : JSVal := JSVal.undefined
  customer_group_id : JSVal := JSVal.undefined
  registration_ip_address : JSVal := JSVal.undefined
  date_created : JSVal := JSVal.undefined
  date_created_min : JSVal := JSVal.undefined
  date_created_max : JSVal := JSVal.undefined
  date_modified : JSVal := JSVal.undefined
  date_modified_min : JSVal := JSVal.undefined
  date_modified_max : JSVal := JSVal.undefined
  sort : JSVal := JSVal.undefined
  -- the source parameter is named `include`, a keyword here
  include_arg : JSVal := JSVal.undefined
  limit : JSVal := JSVal.undefined
  page : JSVal := JSVal.undefined

/-- One conditional append from lines 63-80 of get-all-customers.js. -/
def appendIf (k : String) (v : JSVal) : List (String × String) :=
  if JSVal.truthy v then [(k, JSVal.jsToString v)] else []

/-- Lines 49-50 and 60-80 of get-all-customers.js: the v3 Customers API
query parameters in append order. -/
def buildQueryParams (a : Args) : List (String × String) :=
  let limit := JSVal.jsDefault a.limit (JSVal.num 50)
  let page := JSVal.jsDefault a.page (JSVal.num 1)
  appendIf "id:in" a.id
    ++ appendIf "email:in" a.email
    ++ appendIf "name:in" a.name
    ++ appendIf "name:like" a.name_like
    ++ appendIf "company:in" a.company
    ++ appendIf "phone:in" a.phone
    ++ appendIf "customer_group_id:in" a.customer_group_id
    ++ appendIf "registration_ip_address:in" a.registration_ip_address
    ++ appendIf "date_created" a.date_created
    ++ appendIf "date_created:min" a.date_created_min
    ++ appendIf "date_created:max" a.date_created_max
    ++ appendIf "date_modified" a.date_modified
    ++ appendIf "date_modified:min" a.date_modified_min
    ++ appendIf "date_modified:max" a.date_modified_max
    ++ appendIf "sort" a.sort
    ++ appendIf "include" a.include_arg
    ++ appendIf "limit" limit
    ++ appendIf "page" page

/-- The query string appended to `/v3/customers`. -/
def queryString (a : Args) : String :=
  searchParamsToString (buildQueryParams a)

/-- Lines 98-129 of get-all-customers.js: response classification. A non-ok
status throws "HTTP {status}: {body}"; an ok response whose (trimmed) body
starts with "<" throws the HTML-classified BigCommerce error; otherwise the
body must parse as JSON (there is no empty-body check in this module). -/
def handleResponseCore (r : HttpResp) : Except String JSVal :=
  if !r.ok then
    Except.error ("HTTP " ++ toString r.status ++ ": " ++ r.body)
  else if strStartsWith (jsTrim r.body) "<" then
    let errorTitle := (findTitle r.body).getD "Unknown error"
    let errorDetails :=
      if strContains r.body "401" || strContains r.body "Unauthorized" then
        "Authentication failed - invalid API token"
      else if strContains r.body "403" || strContains r.body "Forbidden" then
        "Access forbidden - check API token permissions"
      else if strContains r.body "404" || strContains r.body "Not Found" then
        "Store not found - check store hash"
      else ""
    Except.error ("BigCommerce API Error: " ++ errorTitle ++ ". " ++ errorDetails)
  else
    match jsonParse r.body with
    | some data => Except.ok data
    | none => Except.error (jsonParseErrMsg r.body)

/-- The response-handling path of `executeFunction` with its final catch. -/
def executeFunction (r : HttpResp) : OpResult :=
  match handleResponseCore r with
  | Except.ok v => OpResult.success v
  | Except.error m =>
    OpResult.failure ("An error occurred while getting all customers: " ++ m)

end GetAllCustomers

/-! ### src/mcpServer.js — the CallTool request handler (`setupServerHandlers`). -/

namespace McpServer

/-- One item of the response's `content` array. -/
structure ContentItem where
  type : String
  text : String

/-- The `_meta` block attached to a success response (lines 106-111).
`hasData` is the raw value of the JavaScript expression
`result && typeof result === 'object' && (result.data || Array.isArray(result))`,
which is not always a boolean. -/
structure RespMeta where
  toolName : String
  resultType : String
  hasData : JSVal
  timestamp : String

/-- The value returned by the CallTool handler on the non-throwing paths. -/
structure ResponseEnvelope where
  content : List ContentItem
  isError : Option Bool
  meta : Option RespMeta

/-- The protocol error codes of `McpError` used by the handler. -/
inductive ErrCode : Type where
  | MethodNotFound
  | InvalidParams
  | InternalError
deriving DecidableEq

/-- What `await tool.function(args)` did: returned a value, or threw an
error carrying a message. -/
inductive OpOutcome : Type where
  | ret : JSVal → OpOutcome
  | thrown : String → OpOutcome

/-- The observable result of one CallTool request: a thrown `McpError`
protocol fault, or a response envelope. -/
inductive CallResult : Type where
  | fault : ErrCode → String → CallResult
  | envelope : ResponseEnvelope → CallResult

/-- An argument bag: the parsed `request.params.arguments` object. -/
def Bag : Type := List (String × JSVal)

/-- The `in` operator of line 56: is `k` a key of the bag? -/
def hasKey (args : Bag) (k : String) : Bool :=
  args.any (fun p => p.1 == k)

/-- Lines 82-96: the success-path formatting cascade over the payload. -/
def formatResult (result : JSVal) : String :=
  match result with
  | JSVal.str s => s
  | JSVal.arr xs =>
    "Found " ++ toString xs.length ++ " items:\n" ++ JSVal.stringify2 (JSVal.arr xs)
  | JSVal.obj fs =>
    let d := JSVal.getField (JSVal.obj fs) "data"
    if JSVal.truthy d && JSVal.isArrayV d then
      "Found " ++ toString (JSVal.arrayLen d) ++ " items:\n"
        ++ JSVal.stringify2 (JSVal.obj fs)
    else JSVal.stringify2 (JSVal.obj fs)
  | v => JSVal.jsToString v

/-- Line 109: the `hasData` metadata expression, with JavaScript `&&`/`||`
returning operands rather than booleans. -/
def hasDataVal (result : JSVal) : JSVal :=
  JSVal.jsAnd
    (JSVal.jsAnd result (JSVal.bool (JSVal.typeofStr result == "object")))
    (JSVal.jsOr (JSVal.getField result "data") (JSVal.bool (JSVal.isArrayV result)))

/-- Line 68: does the returned value select the business-failure branch?
(`result && typeof result === 'object' && result.error`, as a condition). -/
def selectsErrorBranch (result : JSVal) : Bool :=
  JSVal.truthy result && (JSVal.typeofStr result == "object")
    && JSVal.truthy (JSVal.getField result "error")

/-- Lines 52-119 of src/mcpServer.js: the body of the CallTool handler
after the tool has been resolved, parameterised by the tool's declared
`required` list, the argument bag, what invoking the operation did, and
the timestamp `new Date().toISOString()` produced. -/
def callTool (toolName : String) (required : List String) (args : Bag)
    (outcome : OpOutcome) (timestamp : String) : CallResult :=
  match required.find? (fun r => !hasKey args r) with
  | some missing =>
    CallResult.fault ErrCode.InvalidParams ("Missing required parameter: " ++ missing)
  | none =>
    match outcome with
    | OpOutcome.thrown msg =>
      CallResult.fault ErrCode.InternalError ("API error: " ++ msg)
    | OpOutcome.ret result =>
      if selectsErrorBranch result then
        CallResult.envelope
          { content := [⟨"text", "Error: " ++ JSVal.jsToString (JSVal.getField result "error")⟩]
            isError := some true
            meta := none }
      else
        CallResult.envelope
          { content := [⟨"text", formatResult result⟩]
            isError := none
            meta := some
              { toolName := toolName
                resultType := JSVal.typeofStr result
                hasData := hasDataVal result
                timestamp := timestamp } }

/-- The text of the sole content item, when the call produced an envelope. -/
def respText : CallResult → Option String
  | CallResult.envelope e =>
    match e.content with
    | [item] => some item.text
    | _ => none
  | CallResult.fault _ _ => none

/-- The `isError` flag, when the call produced an envelope. -/
def respIsError : CallResult → Option (Option Bool)
  | CallResult.envelope e => some e.isError
  | CallResult.fault _ _ => none

/-- The `_meta.hasData` value, when the call produced an envelope carrying
metadata. -/
def metaHasData : CallResult → Option JSVal
  | CallResult.envelope e => e.meta.map RespMeta.hasData
  | CallResult.fault _ _ => none

def isEnvelope : CallResult → Bool
  | CallResult.envelope _ => true
  | CallResult.fault _ _ => false

/-! ### src/mcpServer.js — process-level control flow (`run`, `setupStdio`). -/

/-- What a whole process invocation does, as far as exit codes and which
binding starts are observable. -/
inductive RunBehavior : Type where
  | exitCode : Nat → RunBehavior
  | serveHttp : Nat → RunBehavior
  | serveSSE : Nat → RunBehavior
  | serveStdio : Nat → RunBehavior
deriving DecidableEq

/-- Lines 355-393 of src/mcpServer.js: flag parsing, discovery, the
conflicting-flags check, binding selection, and the catch block that keeps
HTTP-based bindings alive with zero tools. `discovery` is `Except.ok n`
when `discoverTools()` resolves with `n` tools and `Except.error m` when it
throws. The payload of serve* is the number of tools served. -/
def run (isStreamableHttp isSSE : Bool) (discovery : Except String Nat) : RunBehavior :=
  match discovery with
  | Except.ok n =>
    if isStreamableHttp && isSSE then RunBehavior.exitCode 1
    else if isStreamableHttp then RunBehavior.serveHttp n
    else if isSSE then RunBehavior.serveSSE n
    else RunBehavior.serveStdio n
  | Except.error _ =>
    if isStreamableHttp || isSSE then
      if isStreamableHttp then RunBehavior.serveHttp 0
      else RunBehavior.serveSSE 0
    else RunBehavior.exitCode 1

/-- Lines 346-349 of src/mcpServer.js: the SIGINT handler installed by
`setupStdio` closes the server and exits with code 0. -/
def stdioSigintBehavior : RunBehavior := RunBehavior.exitCode 0

end McpServer

/-! ## Helper lemmas -/

/-- A substring of the right part of a concatenation occurs in the whole. -/
theorem listHasSub_append_right (n h2 : List Char) (h1 : List Char)
    (h : listHasSub n h2 = true) : listHasSub n (h1 ++ h2) = true := by
  induction h1 with
  | nil => simpa using h
  | cons c cs ih =>
    simp only [List.cons_append, listHasSub, Bool.or_eq_true]
    exact Or.inr ih

/-- `strContains` over a right concatenation. -/
theorem strContains_append_right (a b n : String)
    (h : strContains b n = true) : strContains (a ++ b) n = true := by
  unfold strContains at h ⊢
  have hsplit : (a ++ b).toList = a.toList ++ b.toList := by
    show (a ++ b).data = a.data ++ b.data
    exact String.data_append a b
  rw [hsplit]
  exact listHasSub_append_right _ _ _ h

/-- Appending to a nonempty string stays nonempty. -/
theorem append_ne_empty_left (a b : String) (ha : a ≠ "") : a ++ b ≠ "" := by
  intro hcontra
  apply ha
  have : (a ++ b).data = "".data := by rw [hcontra]
  rw [String.data_append] at this
  cases a with
  | mk l =>
    cases l with
    | nil => rfl
    | cons c cs => simp at this

/-! ## The claims -/

/-- C1. The claim asserts `_meta.hasData` is the boolean `true` for the
round-trip payload, but line 109 of src/mcpServer.js evaluates
`result && typeof result === 'object' && (result.data || Array.isArray(result))`,
whose JavaScript `||` yields its first truthy operand — here the `data`
array itself — so `hasData` is that array, not the boolean `true`. -/
theorem claim1_hasData_not_boolean :
    McpServer.metaHasData
      (McpServer.callTool "get_all_products" ["store_Hash"]
        [("store_Hash", JSVal.str "abc")]
        (McpServer.OpOutcome.ret
          (JSVal.obj [("data", JSVal.arr [JSVal.obj [("id", JSVal.num 1)]])]))
        "2024-01-01T00:00:00.000Z")
      ≠ some (JSVal.bool true) := by
  intro h
  have h2 : some (JSVal.arr [JSVal.obj [("id", JSVal.num 1)]]) = some (JSVal.bool true) := h
  simp at h2

/-- C1 (amended). For a descriptor requiring `store_Hash`, calling with
`{store_Hash: "abc"}` and an operation returning `{"data":[{"id":1}]}`
yields the sole content text "Found 1 items:\n" followed by the 2-space
pretty-printed JSON of the whole payload, no `isError` flag, and a
`_meta.hasData` that is the payload's `data` array — a truthy value, but
not the boolean `true`. -/
theorem claim1_roundtrip :
    McpServer.callTool "get_all_products" ["store_Hash"]
        [("store_Hash", JSVal.str "abc")]
        (McpServer.OpOutcome.ret
          (JSVal.obj [("data", JSVal.arr [JSVal.obj [("id", JSVal.num 1)]])]))
        "2024-01-01T00:00:00.000Z"
      = McpServer.CallResult.envelope
          { content :=
              [⟨"text",
                "Found 1 items:\n\x7b\n  \x22data\x22: [\n    \x7b\n      \x22id\x22: 1\n    \x7d\n  ]\n\x7d"⟩]
            isError := none
            meta := some
              { toolName := "get_all_products"
                resultType := "object"
                hasData := JSVal.arr [JSVal.obj [("id", JSVal.num 1)]]
                timestamp := "2024-01-01T00:00:00.000Z" } }
      ∧ JSVal.truthy (JSVal.arr [JSVal.obj [("id", JSVal.num 1)]]) = true := by
  exact ⟨by rfl, by rfl⟩

/-- C3. Calling get_all_orders with `{customer_id: 3}` produces the
upstream query string "customer_id=3&limit=50&page=1": the only filter
parameter present is `customer_id` (with value 3); `limit` and `page` are
the defaulted pagination controls, not filters. -/
theorem claim3_orders_customer_id_query :
    GetAllOrders.queryString { customer_id := JSVal.num 3 } = "customer_id=3&limit=50&page=1"
      ∧ (GetAllOrders.buildQueryParams { customer_id := JSVal.num 3 }).map Prod.fst
          = ["customer_id", "limit", "page"]
      ∧ ((GetAllOrders.buildQueryParams { customer_id := JSVal.num 3 }).map Prod.fst).filter
            (fun k => GetAllOrders.filterKeys.contains k)
          = ["customer_id"] := by
  refine ⟨by rfl, by rfl, by rfl⟩

/-- C8. The claim asserts the process exits with code 1 whenever both
`--streamable-http` and `--sse` are given; but the conflicting-flags check
on line 364 of src/mcpServer.js sits inside the `try` after discovery, so
when discovery throws, the catch block starts the streamable-http binding
with an empty tool list instead of exiting. -/
theorem claim8_both_flags_counterexample :
    McpServer.run true true (Except.error "discovery failed")
      ≠ McpServer.RunBehavior.exitCode 1 := by decide

/-- C8 (amended). Pipe (stdio) mode exits 0 on interrupt-driven shutdown
and 1 when discovery fails; both flags given with successful discovery
exits 1; when discovery fails with an HTTP-based binding selected the
server still starts with zero tools — including when both flags were
given, in which case the conflicting-flags exit never happens. -/
theorem claim8_exit_codes (m : String) (n : Nat) :
    McpServer.stdioSigintBehavior = McpServer.RunBehavior.exitCode 0
      ∧ McpServer.run false false (Except.error m) = McpServer.RunBehavior.exitCode 1
      ∧ McpServer.run true true (Except.ok n) = McpServer.RunBehavior.exitCode 1
      ∧ McpServer.run true false (Except.error m) = McpServer.RunBehavior.serveHttp 0
      ∧ McpServer.run false true (Except.error m) = McpServer.RunBehavior.serveSSE 0
      ∧ McpServer.run true true (Except.error m) = McpServer.RunBehavior.serveHttp 0
      ∧ McpServer.run false false (Except.ok n) = McpServer.RunBehavior.serveStdio n := by
  refine ⟨by rfl, by rfl, by rfl, by rfl, by rfl, by rfl, by rfl⟩

/-! ## Dispatcher helper lemmas -/

/-- When every required parameter is present, the missing-parameter scan
finds nothing. -/
theorem find_missing_none (req : List String) (args : McpServer.Bag)
    (h : ∀ p ∈ req, McpServer.hasKey args p = true) :
    req.find? (fun r => !McpServer.hasKey args r) = none := by
  rw [List.find?_eq_none]
  intro x hx
  simp [h x hx]

/-- Scanning `pre ++ r :: post` finds `r` when everything in `pre` is
present and `r` is absent. -/
theorem find_missing_first (pre : List String) (r : String) (post : List String)
    (args : McpServer.Bag)
    (hpre : ∀ p ∈ pre, McpServer.hasKey args p = true)
    (hr : McpServer.hasKey args r = false) :
    (pre ++ r :: post).find? (fun x => !McpServer.hasKey args x) = some r := by
  induction pre with
  | nil => simp [List.find?, hr]
  | cons p ps ih =>
    have hp : McpServer.hasKey args p = true := hpre p (by simp)
    have hps : ∀ q ∈ ps, McpServer.hasKey args q = true := fun q hq =>
      hpre q (by simp [hq])
    simp [List.find?, hp, ih hps]

/-- The handler's success path, exposed as an equation: with no missing
required parameter and a returned value that does not select the error
branch, the envelope carries the formatted text and the metadata block. -/
theorem callTool_ret_success (name : String) (req : List String)
    (args : McpServer.Bag) (v : JSVal) (ts : String)
    (hreq : req.find? (fun r => !McpServer.hasKey args r) = none)
    (hsel : McpServer.selectsErrorBranch v = false) :
    McpServer.callTool name req args (McpServer.OpOutcome.ret v) ts
      = McpServer.CallResult.envelope
          { content := [⟨"text", McpServer.formatResult v⟩]
            isError := none
            meta := some
              { toolName := name
                resultType := JSVal.typeofStr v
                hasData := McpServer.hasDataVal v
                timestamp := ts } } := by
  unfold McpServer.callTool
  rw [hreq]
  dsimp only
  rw [hsel]
  simp

/-- The handler's business-failure path: a returned value selecting the
error branch yields the `isError: true` envelope with no metadata. -/
theorem callTool_ret_error (name : String) (req : List String)
    (args : McpServer.Bag) (v : JSVal) (ts : String)
    (hreq : req.find? (fun r => !McpServer.hasKey args r) = none)
    (hsel : McpServer.selectsErrorBranch v = true) :
    McpServer.callTool name req args (McpServer.OpOutcome.ret v) ts
      = McpServer.CallResult.envelope
          { content := [⟨"text", "Error: " ++ JSVal.jsToString (JSVal.getField v "error")⟩]
            isError := some true
            meta := none } := by
  unfold McpServer.callTool
  rw [hreq]
  dsimp only
  rw [hsel]
  simp

/-- The handler's exception path: a thrown operation error becomes the
`InternalError` protocol fault wrapping the thrown message. -/
theorem callTool_thrown (name : String) (req : List String)
    (args : McpServer.Bag) (msg ts : String)
    (hreq : req.find? (fun r => !McpServer.hasKey args r) = none) :
    McpServer.callTool name req args (McpServer.OpOutcome.thrown msg) ts
      = McpServer.CallResult.fault McpServer.ErrCode.InternalError ("API error: " ++ msg) := by
  unfold McpServer.callTool
  rw [hreq]

/-- A `{ error: m }` value with a nonempty message selects the error
branch. -/
theorem selectsErrorBranch_failure (m : String) (hm : m ≠ "") :
    McpServer.selectsErrorBranch (OpResult.failure m).toJS = true := by
  simp [McpServer.selectsErrorBranch, OpResult.toJS, JSVal.truthy, JSVal.typeofStr,
    JSVal.getField, JSVal.lookupField, List.find?, hm]

/-- C2. The claim covers all three operations, but get-all-customers.js
has no empty-body check: a 2xx response with an empty body reaches
`JSON.parse(responseText)`, which throws, so get_all_customers returns a
`{ error: ... }` Failure value instead of the `{data: [], meta: {total: 0}}`
sentinel. -/
theorem claim2_customers_empty_body_counterexample :
    GetAllCustomers.executeFunction ⟨true, 200, "OK", ""⟩ ≠ OpResult.success emptySentinel
      ∧ (GetAllCustomers.executeFunction ⟨true, 200, "OK", ""⟩).isFailure = true := by
  constructor
  · intro h
    have h2 : OpResult.failure
        ("An error occurred while getting all customers: Unexpected end of JSON input")
        = OpResult.success emptySentinel := h
    simp at h2
  · rfl

/-- C2 (amended). get_all_products and get_all_orders turn a 2xx response
with an empty (or all-whitespace) body into the `{data: [], meta: {total: 0}}`
sentinel as a Success; get_all_customers instead returns a Failure value
wrapping the JSON parse error. -/
theorem claim2_empty_body (r : HttpResp) (hok : r.ok = true) (hb : jsTrim r.body = "") :
    GetAllProducts.executeFunction r = OpResult.success emptySentinel
      ∧ GetAllOrders.executeFunction r = OpResult.success emptySentinel
      ∧ GetAllCustomers.executeFunction ⟨true, 200, "OK", ""⟩
          = OpResult.failure
              ("An error occurred while getting all customers: Unexpected end of JSON input") := by
  refine ⟨?_, ?_, by rfl⟩
  · unfold GetAllProducts.executeFunction GetAllProducts.handleResponseCore
    simp [hok, hb]
  · unfold GetAllOrders.executeFunction GetAllOrders.handleResponseCore
    simp [hok, hb]

/-- C2 witness: the amended empty-body law at the concrete response
`{ok := true, status := 200, body := ""}`. -/
theorem claim2_empty_body_witness :
    GetAllProducts.executeFunction ⟨true, 200, "OK", ""⟩ = OpResult.success emptySentinel
      ∧ GetAllOrders.executeFunction ⟨true, 200, "OK", ""⟩ = OpResult.success emptySentinel
      ∧ GetAllCustomers.executeFunction ⟨true, 200, "OK", ""⟩
          = OpResult.failure
              ("An error occurred while getting all customers: Unexpected end of JSON input") :=
  claim2_empty_body ⟨true, 200, "OK", ""⟩ (by rfl) (by rfl)

/-- C4. The claim asserts a 401-status HTML response yields a fault whose
text contains "Authentication failed"; but a 401 status has `ok = false`,
so get-all-customers.js takes the `!response.ok` branch (line 99) and
throws `HTTP 401: <body>` — the HTML classification with its
"Authentication failed" hint (lines 109-124) only runs on an `ok`
response. The resulting fault text does not contain the substring. -/
theorem claim4_401_html_counterexample :
    McpServer.respIsError
        (McpServer.callTool "get_all_customers" [] []
          (McpServer.OpOutcome.ret
            (GetAllCustomers.executeFunction
              ⟨false, 401, "Unauthorized",
               "<html><head><title>401 Unauthorized</title></head></html>"⟩).toJS)
          "T") = some (some true)
      ∧ (McpServer.respText
          (McpServer.callTool "get_all_customers" [] []
            (McpServer.OpOutcome.ret
              (GetAllCustomers.executeFunction
                ⟨false, 401, "Unauthorized",
                 "<html><head><title>401 Unauthorized</title></head></html>"⟩).toJS)
            "T")).map (fun t => strContains t "Authentication failed") = some false := by
  exact ⟨by rfl, by rfl⟩

/-- C4 (amended). For get_all_customers, an `ok` (2xx) upstream response
whose trimmed body starts with "<" and whose body contains "401" or
"Unauthorized" produces a business-fault envelope with `isError: true`
whose text contains "Authentication failed"; an actual 401-status
response instead takes the non-ok branch and reports "HTTP 401: ...". -/
theorem claim4_html_auth_fault (status : Nat) (stext body ts : String)
    (hhtml : strStartsWith (jsTrim body) "<" = true)
    (h401 : (strContains body "401" || strContains body "Unauthorized") = true) :
    McpServer.respIsError
        (McpServer.callTool "get_all_customers" [] []
          (McpServer.OpOutcome.ret
            (GetAllCustomers.executeFunction ⟨true, status, stext, body⟩).toJS) ts)
        = some (some true)
      ∧ (McpServer.respText
          (McpServer.callTool "get_all_customers" [] []
            (McpServer.OpOutcome.ret
              (GetAllCustomers.executeFunction ⟨true, status, stext, body⟩).toJS) ts)).map
          (fun t => strContains t "Authentication failed") = some true := by
  have hmsg :
      GetAllCustomers.executeFunction ⟨true, status, stext, body⟩
        = OpResult.failure
            ("An error occurred while getting all customers: "
              ++ ("BigCommerce API Error: " ++ ((findTitle body).getD "Unknown error")
                  ++ ". " ++ "Authentication failed - invalid API token")) := by
    unfold GetAllCustomers.executeFunction GetAllCustomers.handleResponseCore
    simp [hhtml, h401]
  rw [hmsg]
  set m := "An error occurred while getting all customers: "
    ++ ("BigCommerce API Error: " ++ ((findTitle body).getD "Unknown error")
        ++ ". " ++ "Authentication failed - invalid API token") with hmdef
  have hne : m ≠ "" := append_ne_empty_left _ _ (by decide)
  have hcall := callTool_ret_error "get_all_customers" [] [] (OpResult.failure m).toJS ts
    (by rfl) (selectsErrorBranch_failure m hne)
  have hfield : JSVal.getField (OpResult.failure m).toJS "error" = JSVal.str m := by
    simp [OpResult.toJS, JSVal.getField, JSVal.lookupField, List.find?]
  rw [hfield] at hcall
  rw [hcall]
  refine ⟨by rfl, ?_⟩
  have hcontains : strContains ("Error: " ++ JSVal.jsToString (JSVal.str m))
      "Authentication failed" = true := by
    apply strContains_append_right
    show strContains m "Authentication failed" = true
    rw [hmdef]
    apply strContains_append_right
    apply strContains_append_right
    decide
  simp [McpServer.respText, hcontains]

/-- C4 witness: the amended HTML-fault law at a concrete 2xx HTML body
announcing a 401. -/
theorem claim4_html_auth_fault_witness :
    McpServer.respIsError
        (McpServer.callTool "get_all_customers" [] []
          (McpServer.OpOutcome.ret
            (GetAllCustomers.executeFunction
              ⟨true, 200, "OK",
               "<html><head><title>Store</title></head><body>401 Unauthorized</body></html>"⟩).toJS)
          "T") = some (some true)
      ∧ (McpServer.respText
          (McpServer.callTool "get_all_customers" [] []
            (McpServer.OpOutcome.ret
              (GetAllCustomers.executeFunction
                ⟨true, 200, "OK",
                 "<html><head><title>Store</title></head><body>401 Unauthorized</body></html>"⟩).toJS)
            "T")).map (fun t => strContains t "Authentication failed") = some true :=
  claim4_html_auth_fault 200 "OK"
    "<html><head><title>Store</title></head><body>401 Unauthorized</body></html>" "T"
    (by rfl) (by rfl)

/-- The error field of a Failure-shaped value. -/
theorem failure_error_field (m : String) :
    JSVal.getField (OpResult.failure m).toJS "error" = JSVal.str m := by
  simp [OpResult.toJS, JSVal.getField, JSVal.lookupField, List.find?]

/-- A non-`undefined` destructured value keeps itself over its default. -/
theorem jsDefault_of_ne_undefined (v d : JSVal) (h : v ≠ JSVal.undefined) :
    JSVal.jsDefault v d = v := by
  cases v with
  | undefined => exact absurd rfl h
  | null => rfl
  | bool _ => rfl
  | num _ => rfl
  | str _ => rfl
  | arr _ => rfl
  | obj _ => rfl

/-- C5. On the success path the response text is determined by the payload
shape: a string verbatim; an array of length N as "Found N items:\n" plus
its 2-space pretty-printed JSON; an object whose `data` field is an array
of length N the same with the whole object pretty-printed; any other
object as its pretty-printed JSON; a number, boolean or null as its string
conversion. -/
theorem claim5_success_formatting
    (s ts : String) (xs ds : List JSVal) (fs gs : List (String × JSVal)) (n : Int) (b : Bool)
    (hfs : JSVal.lookupField fs "data" = some (JSVal.arr ds))
    (hfe : JSVal.truthy (JSVal.getField (JSVal.obj fs) "error") = false)
    (hg : JSVal.isArrayV (JSVal.getField (JSVal.obj gs) "data") = false)
    (hge : JSVal.truthy (JSVal.getField (JSVal.obj gs) "error") = false) :
    McpServer.respText
        (McpServer.callTool "t" [] [] (McpServer.OpOutcome.ret (JSVal.str s)) ts) = some s
      ∧ McpServer.respText
          (McpServer.callTool "t" [] [] (McpServer.OpOutcome.ret (JSVal.arr xs)) ts)
          = some ("Found " ++ toString xs.length ++ " items:\n"
              ++ JSVal.stringify2 (JSVal.arr xs))
      ∧ McpServer.respText
          (McpServer.callTool "t" [] [] (McpServer.OpOutcome.ret (JSVal.obj fs)) ts)
          = some ("Found " ++ toString ds.length ++ " items:\n"
              ++ JSVal.stringify2 (JSVal.obj fs))
      ∧ McpServer.respText
          (McpServer.callTool "t" [] [] (McpServer.OpOutcome.ret (JSVal.obj gs)) ts)
          = some (JSVal.stringify2 (JSVal.obj gs))
      ∧ McpServer.respText
          (McpServer.callTool "t" [] [] (McpServer.OpOutcome.ret (JSVal.num n)) ts)
          = some (toString n)
      ∧ McpServer.respText
          (McpServer.callTool "t" [] [] (McpServer.OpOutcome.ret (JSVal.bool b)) ts)
          = some (if b then "true" else "false")
      ∧ McpServer.respText
          (McpServer.callTool "t" [] [] (McpServer.OpOutcome.ret JSVal.null) ts)
          = some "null" := by
  refine ⟨?_, ?_, ?_, ?_, ?_, ?_, ?_⟩
  · rw [callTool_ret_success "t" [] [] (JSVal.str s) ts (by rfl)
      (by simp [McpServer.selectsErrorBranch, JSVal.typeofStr])]
    rfl
  · rw [callTool_ret_success "t" [] [] (JSVal.arr xs) ts (by rfl)
      (by simp [McpServer.selectsErrorBranch, JSVal.getField, JSVal.truthy])]
    rfl
  · rw [callTool_ret_success "t" [] [] (JSVal.obj fs) ts (by rfl)
      (by simp [McpServer.selectsErrorBranch, hfe])]
    simp only [McpServer.respText, McpServer.formatResult, JSVal.getField, hfs,
      Option.getD, JSVal.truthy, JSVal.isArrayV, Bool.and_self, if_true,
      JSVal.arrayLen]
  · rw [callTool_ret_success "t" [] [] (JSVal.obj gs) ts (by rfl)
      (by simp [McpServer.selectsErrorBranch, hge])]
    simp only [McpServer.respText, McpServer.formatResult, hg, Bool.and_false,
      Bool.if_false_left]
    simp [hg]
  · rw [callTool_ret_success "t" [] [] (JSVal.num n) ts (by rfl)
      (by simp [McpServer.selectsErrorBranch, JSVal.typeofStr])]
    rfl
  · rw [callTool_ret_success "t" [] [] (JSVal.bool b) ts (by rfl)
      (by simp [McpServer.selectsErrorBranch, JSVal.typeofStr])]
    rfl
  · rw [callTool_ret_success "t" [] [] JSVal.null ts (by rfl)
      (by simp [McpServer.selectsErrorBranch, JSVal.truthy])]
    rfl

/-- C5 witness: the formatting law at concrete payloads. -/
theorem claim5_success_formatting_witness :
    McpServer.respText
        (McpServer.callTool "t" [] [] (McpServer.OpOutcome.ret (JSVal.str "hi")) "T") = some "hi"
      ∧ McpServer.respText
          (McpServer.callTool "t" [] [] (McpServer.OpOutcome.ret (JSVal.arr [JSVal.num 7])) "T")
          = some ("Found " ++ toString (List.length [JSVal.num 7]) ++ " items:\n"
              ++ JSVal.stringify2 (JSVal.arr [JSVal.num 7]))
      ∧ McpServer.respText
          (McpServer.callTool "t" [] []
            (McpServer.OpOutcome.ret (JSVal.obj [("data", JSVal.arr [])])) "T")
          = some ("Found " ++ toString (List.length ([] : List JSVal)) ++ " items:\n"
              ++ JSVal.stringify2 (JSVal.obj [("data", JSVal.arr [])]))
      ∧ McpServer.respText
          (McpServer.callTool "t" [] []
            (McpServer.OpOutcome.ret (JSVal.obj [("a", JSVal.num 2)])) "T")
          = some (JSVal.stringify2 (JSVal.obj [("a", JSVal.num 2)]))
      ∧ McpServer.respText
          (McpServer.callTool "t" [] [] (McpServer.OpOutcome.ret (JSVal.num 5)) "T")
          = some (toString (5 : Int))
      ∧ McpServer.respText
          (McpServer.callTool "t" [] [] (McpServer.OpOutcome.ret (JSVal.bool true)) "T")
          = some (if true then "true" else "false")
      ∧ McpServer.respText
          (McpServer.callTool "t" [] [] (McpServer.OpOutcome.ret JSVal.null) "T")
          = some "null" :=
  claim5_success_formatting "hi" "T" [JSVal.num 7] [] [("data", JSVal.arr [])]
    [("a", JSVal.num 2)] 5 true (by rfl) (by rfl) (by rfl) (by rfl)

/-- C6. The two fault channels never mix: an operation that returns a
Failure value (a `{ error: m }` object with a nonempty message, as every
tool failure path constructs) produces a successful protocol response with
`isError: true` and text "Error: " plus the message — not an
`InternalError` — while an operation that throws produces the
`InternalError` protocol fault wrapping the thrown message. -/
theorem claim6_fault_channels (name : String) (req : List String)
    (args : McpServer.Bag) (msg emsg ts : String)
    (hall : ∀ p ∈ req, McpServer.hasKey args p = true)
    (hmsg : msg ≠ "") :
    McpServer.callTool name req args
        (McpServer.OpOutcome.ret (OpResult.failure msg).toJS) ts
        = McpServer.CallResult.envelope
            { content := [⟨"text", "Error: " ++ msg⟩], isError := some true, meta := none }
      ∧ McpServer.callTool name req args (McpServer.OpOutcome.thrown emsg) ts
        = McpServer.CallResult.fault McpServer.ErrCode.InternalError
            ("API error: " ++ emsg) := by
  have hreq := find_missing_none req args hall
  constructor
  · have hc := callTool_ret_error name req args (OpResult.failure msg).toJS ts hreq
      (selectsErrorBranch_failure msg hmsg)
    rw [failure_error_field] at hc
    exact hc
  · exact callTool_thrown name req args emsg ts hreq

/-- C6 witness: both channels at a concrete call. -/
theorem claim6_fault_channels_witness :
    McpServer.callTool "get_all_products" ["store_Hash"] [("store_Hash", JSVal.str "abc")]
        (McpServer.OpOutcome.ret (OpResult.failure "boom").toJS) "T"
        = McpServer.CallResult.envelope
            { content := [⟨"text", "Error: " ++ "boom"⟩], isError := some true, meta := none }
      ∧ McpServer.callTool "get_all_products" ["store_Hash"] [("store_Hash", JSVal.str "abc")]
          (McpServer.OpOutcome.thrown "boom") "T"
        = McpServer.CallResult.fault McpServer.ErrCode.InternalError ("API error: " ++ "boom") :=
  claim6_fault_channels "get_all_products" ["store_Hash"] [("store_Hash", JSVal.str "abc")]
    "boom" "boom" "T" (by decide) (by decide)

/-- C7. The required-parameter check is deterministic first-missing-wins in
the declared order, and presence-only: with every name before `r` present
and `r` absent, the call fails with `InvalidParams` naming exactly `r`,
whatever the operation would do; and when every required name is present —
whatever the values, and whatever extra keys the bag holds — the call never
raises `InvalidParams` but proceeds to a response envelope. -/
theorem claim7_required_param_check (pre post req2 : List String) (r nm : String)
    (args args2 : McpServer.Bag) (out : McpServer.OpOutcome) (v : JSVal) (ts : String) :
    ((∀ p ∈ pre, McpServer.hasKey args p = true) → McpServer.hasKey args r = false →
      McpServer.callTool nm (pre ++ r :: post) args out ts
        = McpServer.CallResult.fault McpServer.ErrCode.InvalidParams
            ("Missing required parameter: " ++ r))
      ∧ ((∀ p ∈ req2, McpServer.hasKey args2 p = true) →
        McpServer.isEnvelope
          (McpServer.callTool nm req2 args2 (McpServer.OpOutcome.ret v) ts) = true) := by
  constructor
  · intro hpre hr
    unfold McpServer.callTool
    rw [find_missing_first pre r post args hpre hr]
  · intro hall
    unfold McpServer.callTool
    rw [find_missing_none req2 args2 hall]
    dsimp only
    cases h : McpServer.selectsErrorBranch v <;> simp [h, McpServer.isEnvelope]

/-- C7 witness: first-missing-wins at `required = ["a", "b", "c"]` with
`b` and `c` both absent, and the presence-only pass at a bag whose extra
key is unexamined. -/
theorem claim7_required_param_check_witness :
    ((∀ p ∈ ["a"], McpServer.hasKey [("a", JSVal.null), ("x", JSVal.num 9)] p = true) →
      McpServer.hasKey [("a", JSVal.null), ("x", JSVal.num 9)] "b" = false →
      McpServer.callTool "t" (["a"] ++ "b" :: ["c"]) [("a", JSVal.null), ("x", JSVal.num 9)]
          (McpServer.OpOutcome.ret JSVal.null) "T"
        = McpServer.CallResult.fault McpServer.ErrCode.InvalidParams
            ("Missing required parameter: " ++ "b"))
      ∧ ((∀ p ∈ ["a"], McpServer.hasKey [("a", JSVal.undefined), ("x", JSVal.num 9)] p = true) →
        McpServer.isEnvelope
          (McpServer.callTool "t" ["a"] [("a", JSVal.undefined), ("x", JSVal.num 9)]
            (McpServer.OpOutcome.ret JSVal.null) "T") = true) :=
  claim7_required_param_check ["a"] ["c"] ["a"] "b" "t"
    [("a", JSVal.null), ("x", JSVal.num 9)] [("a", JSVal.undefined), ("x", JSVal.num 9)]
    (McpServer.OpOutcome.ret JSVal.null) JSVal.null "T"

/-- C9. The business-failure branch is selected by JavaScript truthiness of
the returned object's `error` property, not by its presence: a falsy
`error` (absent, empty string, 0, null) goes down the success path with no
`isError` flag, while any truthy `error` value — of any type — produces
the `isError: true` envelope with "Error: " plus that value's string
conversion. -/
theorem claim9_error_truthiness (fs : List (String × JSVal)) (e : JSVal) (ts : String) :
    (JSVal.truthy (JSVal.getField (JSVal.obj fs) "error") = false →
      McpServer.callTool "t" [] [] (McpServer.OpOutcome.ret (JSVal.obj fs)) ts
        = McpServer.CallResult.envelope
            { content := [⟨"text", McpServer.formatResult (JSVal.obj fs)⟩]
              isError := none
              meta := some
                { toolName := "t", resultType := "object",
                  hasData := McpServer.hasDataVal (JSVal.obj fs), timestamp := ts } })
      ∧ (JSVal.lookupField fs "error" = some e → JSVal.truthy e = true →
        McpServer.callTool "t" [] [] (McpServer.OpOutcome.ret (JSVal.obj fs)) ts
          = McpServer.CallResult.envelope
              { content := [⟨"text", "Error: " ++ JSVal.jsToString e⟩]
                isError := some true
                meta := none }) := by
  constructor
  · intro hfalsy
    exact callTool_ret_success "t" [] [] (JSVal.obj fs) ts (by rfl)
      (by simp [McpServer.selectsErrorBranch, hfalsy])
  · intro hlk htr
    have hfield : JSVal.getField (JSVal.obj fs) "error" = e := by
      simp [JSVal.getField, hlk]
    have hc := callTool_ret_error "t" [] [] (JSVal.obj fs) ts (by rfl)
      (by unfold McpServer.selectsErrorBranch; rw [hfield, htr]; rfl)
    rw [hfield] at hc
    exact hc

/-- C9 witness: an empty-string `error` takes the success path; a numeric
`error` of 2 produces "Error: 2". -/
theorem claim9_error_truthiness_witness :
    (JSVal.truthy (JSVal.getField (JSVal.obj [("error", JSVal.str "")]) "error") = false →
      McpServer.callTool "t" [] []
          (McpServer.OpOutcome.ret (JSVal.obj [("error", JSVal.str "")])) "T"
        = McpServer.CallResult.envelope
            { content := [⟨"text", McpServer.formatResult (JSVal.obj [("error", JSVal.str "")])⟩]
              isError := none
              meta := some
                { toolName := "t", resultType := "object",
                  hasData := McpServer.hasDataVal (JSVal.obj [("error", JSVal.str "")]),
                  timestamp := "T" } })
      ∧ (JSVal.lookupField [("error", JSVal.num 2)] "error" = some (JSVal.num 2) →
        JSVal.truthy (JSVal.num 2) = true →
        McpServer.callTool "t" [] []
            (McpServer.OpOutcome.ret (JSVal.obj [("error", JSVal.num 2)])) "T"
          = McpServer.CallResult.envelope
              { content := [⟨"text", "Error: " ++ JSVal.jsToString (JSVal.num 2)⟩]
                isError := some true
                meta := none }) :=
  ⟨(claim9_error_truthiness [("error", JSVal.str "")] (JSVal.str "") "T").1,
   (claim9_error_truthiness [("error", JSVal.num 2)] (JSVal.num 2) "T").2⟩

/-- C10. In get_all_orders and get_all_customers every supplied-but-falsy
filter value (0, empty string, and also `page: 0`) is silently omitted from
the query string, while `limit` and `page` are appended with their
destructuring defaults 50 and 1 when the caller supplies neither. -/
theorem claim10_falsy_filters (v : JSVal)
    (hv : JSVal.truthy v = false) (hne : v ≠ JSVal.undefined) :
    (GetAllOrders.buildQueryParams
        { customer_id := v, status_id := v, email := v, page := v }).map Prod.fst
        = ["limit"]
      ∧ GetAllOrders.queryString { customer_id := v, status_id := v, email := v, page := v }
        = "limit=50"
      ∧ GetAllOrders.buildQueryParams {} = [("limit", "50"), ("page", "1")]
      ∧ GetAllOrders.queryString {} = "limit=50&page=1"
      ∧ (GetAllCustomers.buildQueryParams { email := v, phone := v, page := v }).map Prod.fst
        = ["limit"]
      ∧ GetAllCustomers.queryString { email := v, phone := v, page := v } = "limit=50"
      ∧ GetAllCustomers.buildQueryParams {} = [("limit", "50"), ("page", "1")]
      ∧ GetAllCustomers.queryString {} = "limit=50&page=1" := by
  have horders : GetAllOrders.buildQueryParams
      { customer_id := v, status_id := v, email := v, page := v }
      = [("limit", JSVal.jsToString (JSVal.num 50))] := by
    unfold GetAllOrders.buildQueryParams GetAllOrders.appendIf
    rw [jsDefault_of_ne_undefined v (JSVal.num 1) hne]
    have h50 : JSVal.truthy (JSVal.num 50) = true := by rfl
    have hund : JSVal.truthy JSVal.undefined = false := by rfl
    simp [hv, JSVal.jsDefault, h50, hund]
  have hcust : GetAllCustomers.buildQueryParams { email := v, phone := v, page := v }
      = [("limit", JSVal.jsToString (JSVal.num 50))] := by
    unfold GetAllCustomers.buildQueryParams GetAllCustomers.appendIf
    rw [jsDefault_of_ne_undefined v (JSVal.num 1) hne]
    have h50 : JSVal.truthy (JSVal.num 50) = true := by rfl
    have hund : JSVal.truthy JSVal.undefined = false := by rfl
    simp [hv, JSVal.jsDefault, h50, hund]
  refine ⟨?_, ?_, by rfl, by rfl, ?_, ?_, by rfl, by rfl⟩
  · rw [horders]; rfl
  · unfold GetAllOrders.queryString
    rw [horders]; rfl
  · rw [hcust]; rfl
  · unfold GetAllCustomers.queryString
    rw [hcust]; rfl

/-- C10 witness: the falsy-omission law at the supplied value 0. -/
theorem claim10_falsy_filters_witness :
    (GetAllOrders.buildQueryParams
        { customer_id := JSVal.num 0, status_id := JSVal.num 0, email := JSVal.num 0,
          page := JSVal.num 0 }).map Prod.fst = ["limit"]
      ∧ GetAllOrders.queryString
          { customer_id := JSVal.num 0, status_id := JSVal.num 0, email := JSVal.num 0,
            page := JSVal.num 0 } = "limit=50"
      ∧ GetAllOrders.buildQueryParams {} = [("limit", "50"), ("page", "1")]
      ∧ GetAllOrders.queryString {} = "limit=50&page=1"
      ∧ (GetAllCustomers.buildQueryParams
          { email := JSVal.num 0, phone := JSVal.num 0, page := JSVal.num 0 }).map Prod.fst
        = ["limit"]
      ∧ GetAllCustomers.queryString
          { email := JSVal.num 0, phone := JSVal.num 0, page := JSVal.num 0 } = "limit=50"
      ∧ GetAllCustomers.buildQueryParams {} = [("limit", "50"), ("page", "1")]
      ∧ GetAllCustomers.queryString {} = "limit=50&page=1" :=
  claim10_falsy_filters (JSVal.num 0) (by rfl) (by intro h; simp at h)
